import Mathlib

/-!
Verification of the Finance_Advisor repository: a shallow embedding of its
deterministic financial calculator (`calc.py`), text utilities and transcript
store (`utils.py`), and the three-stage multi-agent pipeline (`agents.py`),
together with theorems checking the repository's specification claims.

Numeric modelling: Python floats are modelled by exact rationals (ℚ); Python's
`round(x, 2)` and `.2f` formatting are modelled as round-half-up on the exact
value (the repository's worked values never fall on a tie, so the tie-breaking
convention is immaterial to every statement proved here).
-/

namespace FinanceAdvisor

/-- Model of Python `round(x, 2)`: round to 2 decimal places. -/
def round2 (x : ℚ) : ℚ := ((x * 100 + 1 / 2).floor : ℚ) / 100

theorem ratFloor_eq_intFloor (q : ℚ) : q.floor = ⌊q⌋ := by
  rw [Rat.floor_def', Rat.floor_def]

theorem ratFloor_eq_of {x : ℚ} {n : ℤ} (h1 : (n : ℚ) ≤ x) (h2 : x < n + 1) :
    x.floor = n := by
  rw [ratFloor_eq_intFloor]
  exact Int.floor_eq_iff.mpr ⟨h1, by exact_mod_cast h2⟩

theorem round2_eq_of {x : ℚ} {n : ℤ} (h1 : (n : ℚ) ≤ x * 100 + 1 / 2)
    (h2 : x * 100 + 1 / 2 < n + 1) : round2 x = (n : ℚ) / 100 := by
  rw [round2, ratFloor_eq_of h1 h2]

theorem round2_nonneg {x : ℚ} (h : 0 ≤ x) : 0 ≤ round2 x := by
  rw [round2, ratFloor_eq_intFloor]
  have : (0 : ℤ) ≤ ⌊x * 100 + 1 / 2⌋ := Int.floor_nonneg.mpr (by linarith)
  positivity

/-- Result dictionary of `calculate_sip` (src/calc.py). -/
structure SipResult where
  monthly_sip : ℚ
  total_investment : ℚ
  expected_returns : ℚ
  total_value : ℚ
deriving DecidableEq, Repr

/-- Result dictionary of `calculate_emi` (src/calc.py). -/
structure EmiResult where
  monthly_emi : ℚ
  total_payment : ℚ
  total_interest : ℚ
deriving DecidableEq, Repr

/-- Embedding of `calculate_sip(future_value, years, annual_rate)` from
src/calc.py lines 17-66. -/
def calculate_sip (future_value : ℚ) (years : ℤ) (annual_rate : ℚ) : SipResult :=
  if years ≤ 0 ∨ future_value ≤ 0 then
    { monthly_sip := 0, total_investment := 0, expected_returns := 0, total_value := 0 }
  else
    let r : ℚ := annual_rate / 12 / 100
    let n : ℕ := years.toNat * 12
    let monthly_sip : ℚ :=
      if r = 0 then future_value / (n : ℚ)
      else future_value * r / ((1 + r) ^ n - 1)
    let total_investment : ℚ := monthly_sip * (n : ℚ)
    let expected_returns : ℚ := future_value - total_investment
    { monthly_sip := round2 monthly_sip,
      total_investment := round2 total_investment,
      expected_returns := round2 expected_returns,
      total_value := round2 future_value }

/-- Embedding of `calculate_emi(principal, years, annual_rate)` from
src/calc.py lines 69-114. -/
def calculate_emi (principal : ℚ) (years : ℤ) (annual_rate : ℚ) : EmiResult :=
  if years ≤ 0 ∨ principal ≤ 0 then
    { monthly_emi := 0, total_payment := 0, total_interest := 0 }
  else
    let r : ℚ := annual_rate / 12 / 100
    let n : ℕ := years.toNat * 12
    let monthly_emi : ℚ :=
      if r = 0 then principal / (n : ℚ)
      else principal * r * (1 + r) ^ n / ((1 + r) ^ n - 1)
    let total_payment : ℚ := monthly_emi * (n : ℚ)
    let total_interest : ℚ := total_payment - principal
    { monthly_emi := round2 monthly_emi,
      total_payment := round2 total_payment,
      total_interest := round2 total_interest }

/-- Full evaluation of the spec's worked SIP example on the embedded code. -/
theorem calculate_sip_worked :
    calculate_sip 1000000 5 12 =
      { monthly_sip := 1224445 / 100, total_investment := 73466686 / 100,
        expected_returns := 26533314 / 100, total_value := 1000000 } := by
  have h60 : Int.toNat 5 * 12 = 60 := by decide
  rw [calculate_sip, if_neg (by norm_num)]
  simp only [h60]
  rw [if_neg (by norm_num)]
  rw [SipResult.mk.injEq]
  refine ⟨?_, ?_, ?_, ?_⟩
  · rw [round2_eq_of (n := 1224445) (by norm_num) (by norm_num)]
    norm_num
  · rw [round2_eq_of (n := 73466686) (by norm_num) (by norm_num)]
    norm_num
  · rw [round2_eq_of (n := 26533314) (by norm_num) (by norm_num)]
    norm_num
  · rw [round2_eq_of (n := 100000000) (by norm_num) (by norm_num)]
    norm_num

/-- Evaluation of `calculate_sip` at a negative annual rate. -/
theorem calculate_sip_negrate :
    calculate_sip 100 1 (-12) =
      { monthly_sip := 880 / 100, total_investment := 10562 / 100,
        expected_returns := -562 / 100, total_value := 100 } := by
  have h12 : Int.toNat 1 * 12 = 12 := by decide
  rw [calculate_sip, if_neg (by norm_num)]
  simp only [h12]
  rw [if_neg (by norm_num)]
  rw [SipResult.mk.injEq]
  refine ⟨?_, ?_, ?_, ?_⟩
  · rw [round2_eq_of (n := 880) (by norm_num) (by norm_num)]
    norm_num
  · rw [round2_eq_of (n := 10562) (by norm_num) (by norm_num)]
    norm_num
  · rw [round2_eq_of (n := -562) (by norm_num) (by norm_num)]
    norm_num
  · rw [round2_eq_of (n := 10000) (by norm_num) (by norm_num)]
    norm_num

theorem sip_fields_nonneg (fv annual_rate : ℚ) (years : ℤ) (hr : 0 ≤ annual_rate) :
    0 ≤ (calculate_sip fv years annual_rate).monthly_sip ∧
    0 ≤ (calculate_sip fv years annual_rate).total_investment ∧
    0 ≤ (calculate_sip fv years annual_rate).expected_returns ∧
    0 ≤ (calculate_sip fv years annual_rate).total_value := by
  by_cases hdeg : years ≤ 0 ∨ fv ≤ 0
  · simp only [calculate_sip, if_pos hdeg]
    norm_num
  · have hcond := hdeg
    push_neg at hcond
    obtain ⟨hy, hfv⟩ := hcond
    simp only [calculate_sip, if_neg hdeg]
    set r : ℚ := annual_rate / 12 / 100 with hrdef
    set n : ℕ := years.toNat * 12 with hndef
    have hrnn : 0 ≤ r := by rw [hrdef]; positivity
    have hn1 : 1 ≤ n := by
      rw [hndef]
      omega
    have hnq : (1 : ℚ) ≤ (n : ℚ) := by exact_mod_cast hn1
    have hnne : (n : ℚ) ≠ 0 := by linarith
    by_cases hr0 : r = 0
    · simp only [if_pos hr0]
      have h1 : 0 ≤ fv / (n : ℚ) := div_nonneg hfv.le (by linarith)
      refine ⟨round2_nonneg h1, round2_nonneg (mul_nonneg h1 (by linarith)),
        round2_nonneg ?_, round2_nonneg hfv.le⟩
      rw [div_mul_cancel₀ _ hnne, sub_self]
    · have hrpos : 0 < r := lt_of_le_of_ne hrnn (Ne.symm hr0)
      simp only [if_neg hr0]
      have hb : 1 + (n : ℚ) * r ≤ (1 + r) ^ n := one_add_mul_le_pow (by linarith) n
      have hnr : r ≤ (n : ℚ) * r := by nlinarith
      have hd : 0 < (1 + r) ^ n - 1 := by linarith
      have hms : 0 ≤ fv * r / ((1 + r) ^ n - 1) :=
        div_nonneg (mul_nonneg hfv.le hrnn) hd.le
      refine ⟨round2_nonneg hms, round2_nonneg (mul_nonneg hms (by linarith)),
        round2_nonneg ?_, round2_nonneg hfv.le⟩
      rw [div_mul_eq_mul_div, sub_nonneg, div_le_iff₀ hd]
      nlinarith [mul_le_mul_of_nonneg_left
        (show (n : ℚ) * r ≤ (1 + r) ^ n - 1 by linarith) hfv.le]

theorem emi_fields_nonneg (principal annual_rate : ℚ) (years : ℤ) (hr : 0 ≤ annual_rate) :
    0 ≤ (calculate_emi principal years annual_rate).monthly_emi ∧
    0 ≤ (calculate_emi principal years annual_rate).total_payment ∧
    0 ≤ (calculate_emi principal years annual_rate).total_interest := by
  by_cases hdeg : years ≤ 0 ∨ principal ≤ 0
  · simp only [calculate_emi, if_pos hdeg]
    norm_num
  · have hcond := hdeg
    push_neg at hcond
    obtain ⟨hy, hP⟩ := hcond
    simp only [calculate_emi, if_neg hdeg]
    set r : ℚ := annual_rate / 12 / 100 with hrdef
    set n : ℕ := years.toNat * 12 with hndef
    have hrnn : 0 ≤ r := by rw [hrdef]; positivity
    have hn1 : 1 ≤ n := by
      rw [hndef]
      omega
    have hnq : (1 : ℚ) ≤ (n : ℚ) := by exact_mod_cast hn1
    have hnne : (n : ℚ) ≠ 0 := by linarith
    by_cases hr0 : r = 0
    · simp only [if_pos hr0]
      have h1 : 0 ≤ principal / (n : ℚ) := div_nonneg hP.le (by linarith)
      refine ⟨round2_nonneg h1, round2_nonneg (mul_nonneg h1 (by linarith)),
        round2_nonneg ?_⟩
      rw [div_mul_cancel₀ _ hnne, sub_self]
    · have hrpos : 0 < r := lt_of_le_of_ne hrnn (Ne.symm hr0)
      simp only [if_neg hr0]
      have hb : 1 + (n : ℚ) * r ≤ (1 + r) ^ n := one_add_mul_le_pow (by linarith) n
      have hnr : r ≤ (n : ℚ) * r := by nlinarith
      have hd : 0 < (1 + r) ^ n - 1 := by linarith
      have hxn : (0 : ℚ) < (1 + r) ^ n := by positivity
      have hms : 0 ≤ principal * r * (1 + r) ^ n / ((1 + r) ^ n - 1) :=
        div_nonneg (mul_nonneg (mul_nonneg hP.le hrnn) hxn.le) hd.le
      refine ⟨round2_nonneg hms, round2_nonneg (mul_nonneg hms (by linarith)),
        round2_nonneg ?_⟩
      rw [div_mul_eq_mul_div, sub_nonneg, le_div_iff₀ hd]
      have hgeom : (∑ i ∈ Finset.range n, (1 + r) ^ i) * ((1 + r) - 1) = (1 + r) ^ n - 1 :=
        geom_sum_mul (1 + r) n
      have hterm : ∀ i ∈ Finset.range n, (1 + r) ^ i ≤ (1 + r) ^ n := by
        intro i hi
        exact pow_le_pow_right₀ (by linarith) (le_of_lt (Finset.mem_range.mp hi))
      have hsum : (∑ i ∈ Finset.range n, (1 + r) ^ i) ≤ (n : ℚ) * (1 + r) ^ n := by
        have := Finset.sum_le_card_nsmul (Finset.range n) (fun i => (1 + r) ^ i)
          ((1 + r) ^ n) hterm
        simpa [Finset.card_range, nsmul_eq_mul] using this
      have hdle : (1 + r) ^ n - 1 ≤ (n : ℚ) * (1 + r) ^ n * r := by
        have h1 : (1 + r) ^ n - 1 = (∑ i ∈ Finset.range n, (1 + r) ^ i) * r := by
          rw [← hgeom]
          ring_nf
        rw [h1]
        exact mul_le_mul_of_nonneg_right hsum hrnn
      nlinarith [mul_le_mul_of_nonneg_left hdle hP.le]

/-- Claim C1 counterexample: on the embedded `calculate_sip`, the worked example
at (1000000, 5, 12.0) has total_investment 734666.86 and expected_returns
265333.14, so the values 734667.00 and 265333.00 asserted by the claim are off
by 0.14, far outside the stated ±0.01 tolerance. -/
theorem claim_C1_counterexample :
    ¬ (|(calculate_sip 1000000 5 12).total_investment - 734667| ≤ 1 / 100 ∧
       |(calculate_sip 1000000 5 12).expected_returns - 265333| ≤ 1 / 100) := by
  rw [calculate_sip_worked]
  norm_num [abs_le]

/-- Claim C1 (amended): calculate_sip(1000000, 5, 12.0) returns
monthly_sip 12244.45, total_investment 734666.86 and expected_returns 265333.14,
each within ±0.01, computed by the ordinary-annuity formula with rate 0.01 and
60 periods and rounded to 2 decimal places. -/
theorem claim_C1 :
    |(calculate_sip 1000000 5 12).monthly_sip - 12244.45| ≤ 1 / 100 ∧
    |(calculate_sip 1000000 5 12).total_investment - 734666.86| ≤ 1 / 100 ∧
    |(calculate_sip 1000000 5 12).expected_returns - 265333.14| ≤ 1 / 100 := by
  rw [calculate_sip_worked]
  norm_num [abs_le]

/-- Claim C2: degenerate inputs (non-positive target or years for SIP,
non-positive principal or years for EMI) give all-zero result records, as
returned values of the total functions. -/
theorem claim_C2 (fv principal annual_rate : ℚ) (years : ℤ) :
    (fv ≤ 0 ∨ years ≤ 0 →
      calculate_sip fv years annual_rate =
        { monthly_sip := 0, total_investment := 0, expected_returns := 0, total_value := 0 }) ∧
    (principal ≤ 0 ∨ years ≤ 0 →
      calculate_emi principal years annual_rate =
        { monthly_emi := 0, total_payment := 0, total_interest := 0 }) := by
  constructor
  · intro h
    rw [calculate_sip, if_pos h.symm]
  · intro h
    rw [calculate_emi, if_pos h.symm]

/-- Claim C2 witness: concrete degenerate inputs. -/
theorem claim_C2_witness :
    calculate_sip 0 5 12 =
      { monthly_sip := 0, total_investment := 0, expected_returns := 0, total_value := 0 } ∧
    calculate_emi 500000 0 (85 / 10) =
      { monthly_emi := 0, total_payment := 0, total_interest := 0 } :=
  ⟨(claim_C2 0 1 12 5).1 (Or.inl le_rfl), (claim_C2 1 500000 (85 / 10) 0).2 (Or.inr le_rfl)⟩

/-- Claim C7 counterexample: at a negative annual rate the expected_returns
field of calculate_sip is negative, refuting non-negativity over all real
annualRatePercent. -/
theorem claim_C7_counterexample :
    (calculate_sip 100 1 (-12)).expected_returns < 0 := by
  rw [calculate_sip_negrate]
  norm_num

/-- Claim C7 (amended): for every target, principal, years and every
non-negative annual rate, all fields of the SipResult and EmiResult returned by
calculate_sip and calculate_emi are non-negative. -/
theorem claim_C7 (fv principal annual_rate : ℚ) (years : ℤ) (hr : 0 ≤ annual_rate) :
    (0 ≤ (calculate_sip fv years annual_rate).monthly_sip ∧
     0 ≤ (calculate_sip fv years annual_rate).total_investment ∧
     0 ≤ (calculate_sip fv years annual_rate).expected_returns ∧
     0 ≤ (calculate_sip fv years annual_rate).total_value) ∧
    (0 ≤ (calculate_emi principal years annual_rate).monthly_emi ∧
     0 ≤ (calculate_emi principal years annual_rate).total_payment ∧
     0 ≤ (calculate_emi principal years annual_rate).total_interest) :=
  ⟨sip_fields_nonneg fv annual_rate years hr, emi_fields_nonneg principal annual_rate years hr⟩

/-- Claim C7 witness: the non-negativity theorem applied at a concrete input. -/
theorem claim_C7_witness :
    (0 : ℚ) ≤ 12 ∧ 0 ≤ (calculate_sip 1000000 5 12).expected_returns :=
  ⟨by norm_num, (claim_C7 1000000 500000 12 5 (by norm_num)).1.2.2.1⟩

/-- The character for decimal digit `d`. -/
def digitChar (d : ℕ) : Char := Char.ofNat (48 + d)

/-- Decimal digits of a natural number, most significant first: the model of
Python's rendering of the integer part of the ".2f" string. -/
def natDigits (n : ℕ) : List Char :=
  if n < 10 then [digitChar n]
  else natDigits (n / 10) ++ [digitChar (n % 10)]
termination_by n
decreasing_by exact Nat.div_lt_self (by omega) (by omega)

/-- The 2-digit fractional part of the ".2f" rendering, for `d < 100`. -/
def twoDigits (d : ℕ) : List Char :=
  if d < 10 then '0' :: natDigits d else natDigits d

/-- The comma-insertion while-loop of `format_inr` (src/calc.py lines 157-163):
working right to left, move the last two characters of `remaining` behind a
comma until at most two characters are left. -/
def groupTwos (l : List Char) : List Char :=
  if l.length ≤ 2 then l
  else groupTwos (l.take (l.length - 2)) ++ ',' :: l.drop (l.length - 2)
termination_by l.length
decreasing_by simp only [List.length_take]; omega

/-- Indian grouping of the integer digit string (src/calc.py lines 147-165):
the last three digits form one group, the remaining prefix goes through the
pairs-of-two loop. -/
def indianGroup (s : List Char) : List Char :=
  if s.length ≤ 3 then s
  else groupTwos (s.take (s.length - 3)) ++ ',' :: s.drop (s.length - 3)

/-- Body of `format_inr` for a non-negative amount, as a function of the
integer number of cents produced by the ".2f" rendering (src/calc.py lines
142-171): grouped integer part, followed by "." and the two fractional digits
unless those are "00". -/
def inrCore (cents : ℕ) : List Char :=
  let decDigits := twoDigits (cents % 100)
  let formatted := indianGroup (natDigits (cents / 100))
  if decDigits = ['0', '0'] then formatted
  else formatted ++ '.' :: decDigits

/-- The ".2f" step of `format_inr`: a non-negative amount becomes its integer
number of cents (round-half-up model of the fixed-point float rendering). -/
def centsOf (amount : ℚ) : ℕ := ((amount * 100 + 1 / 2).floor).toNat

/-- The characters of `format_inr` for a non-negative amount. -/
def inrNonneg (amount : ℚ) : List Char := '₹' :: inrCore (centsOf amount)

/-- Embedding of `format_inr(amount)` (src/calc.py lines 117-171); for a
negative amount the code formats `abs(amount)` and keeps everything after the
currency symbol (the Python slice `[1:]`, modelled by `List.drop 1`) behind
"-₹". -/
def format_inr (amount : ℚ) : String :=
  if amount < 0 then ⟨'-' :: '₹' :: (inrNonneg (-amount)).drop 1⟩
  else ⟨inrNonneg amount⟩

theorem centsOf_concrete {a : ℚ} {n : ℕ} (h1 : (n : ℚ) ≤ a * 100 + 1 / 2)
    (h2 : a * 100 + 1 / 2 < n + 1) : centsOf a = n := by
  rw [centsOf, ratFloor_eq_of (n := (n : ℤ)) (by exact_mod_cast h1) (by exact_mod_cast h2)]
  exact Int.toNat_ofNat n

set_option maxRecDepth 4000 in
theorem format_inr_ex1 : format_inr (123456789 / 100) = "₹12,34,567.89" := by
  have hc : centsOf (123456789 / 100) = 123456789 :=
    centsOf_concrete (by norm_num) (by norm_num)
  have hd : natDigits 1234567 = ['1', '2', '3', '4', '5', '6', '7'] := by
    simp [natDigits, digitChar]
  rw [format_inr, if_neg (by norm_num), inrNonneg, hc]
  simp [inrCore, hd, twoDigits, natDigits, digitChar, indianGroup, groupTwos]

theorem format_inr_ex2 : format_inr 50000 = "₹50,000" := by
  have hc : centsOf 50000 = 5000000 := centsOf_concrete (by norm_num) (by norm_num)
  rw [format_inr, if_neg (by norm_num), inrNonneg, hc]
  simp [inrCore, twoDigits, natDigits, digitChar, indianGroup, groupTwos]

theorem format_inr_ex3 : format_inr 100 = "₹100" := by
  have hc : centsOf 100 = 10000 := centsOf_concrete (by norm_num) (by norm_num)
  rw [format_inr, if_neg (by norm_num), inrNonneg, hc]
  simp [inrCore, twoDigits, natDigits, digitChar, indianGroup, groupTwos]

theorem format_inr_ex4 : format_inr (-1234.5) = "-₹1,234.50" := by
  have hneg : (-(-1234.5) : ℚ) = 12345 / 10 := by norm_num
  have hc : centsOf (12345 / 10) = 123450 := centsOf_concrete (by norm_num) (by norm_num)
  rw [format_inr, if_pos (by norm_num), hneg, inrNonneg, hc]
  simp [inrCore, twoDigits, natDigits, digitChar, indianGroup, groupTwos]

/-- Split a character list at its commas (the inverse view of the grouping:
`splitComma g` are the comma-separated groups of `g`). -/
def splitComma : List Char → List (List Char)
  | [] => [[]]
  | c :: rest =>
    let r := splitComma rest
    if c = ',' then [] :: r
    else (c :: r.headI) :: r.tail

theorem splitComma_ne_nil (l : List Char) : splitComma l ≠ [] := by
  cases l with
  | nil => simp [splitComma]
  | cons c rest =>
    by_cases hc : c = ','
    · simp [splitComma, hc]
    · simp [splitComma, hc]

theorem splitComma_no_comma (l : List Char) (h : ∀ c ∈ l, c ≠ ',') :
    splitComma l = [l] := by
  induction l with
  | nil => rfl
  | cons c rest ih =>
    have hc : c ≠ ',' := h c (by simp)
    have hr : splitComma rest = [rest] := ih (fun d hd => h d (by simp [hd]))
    simp [splitComma, hc, hr]

theorem splitComma_append (a b : List Char) :
    splitComma (a ++ ',' :: b) = splitComma a ++ splitComma b := by
  induction a with
  | nil => simp [splitComma]
  | cons c a ih =>
    by_cases hc : c = ','
    · simp [splitComma, hc, ih]
    · obtain ⟨g, gs, hgs⟩ : ∃ g gs, splitComma a = g :: gs := by
        cases h : splitComma a with
        | nil => exact absurd h (splitComma_ne_nil a)
        | cons g gs => exact ⟨g, gs, rfl⟩
      simp [splitComma, hc, ih, hgs]

/-- Structure of the comma-insertion loop's output: its comma-separated groups
concatenate back to the input, the leftmost group has 1 or 2 characters, and
every other group has exactly 2. -/
theorem groupTwos_struct : ∀ (N : ℕ) (t : List Char), t.length ≤ N → t ≠ [] →
    (∀ c ∈ t, c ≠ ',') →
    ∃ m k, (m = 1 ∨ m = 2) ∧
      (splitComma (groupTwos t)).map List.length = m :: List.replicate k 2 ∧
      (splitComma (groupTwos t)).flatten = t := by
  intro N
  induction N with
  | zero =>
    intro t hlen hne _
    exact absurd (List.length_eq_zero.mp (Nat.le_zero.mp hlen)) hne
  | succ N ih =>
    intro t hlen hne hnc
    by_cases hsmall : t.length ≤ 2
    · rw [groupTwos, if_pos hsmall]
      rw [splitComma_no_comma t hnc]
      have hpos : 0 < t.length := List.length_pos.mpr hne
      refine ⟨t.length, 0, by omega, by simp, by simp⟩
    · rw [groupTwos, if_neg hsmall]
      have h3 : 3 ≤ t.length := by omega
      set t1 : List Char := t.take (t.length - 2) with ht1
      set t2 : List Char := t.drop (t.length - 2) with ht2
      have ht1len : t1.length = t.length - 2 := by
        rw [ht1, List.length_take]
        omega
      have ht2len : t2.length = 2 := by
        rw [ht2, List.length_drop]
        omega
      have ht1ne : t1 ≠ [] := by
        intro h
        rw [h] at ht1len
        simp at ht1len
        omega
      have ht1nc : ∀ c ∈ t1, c ≠ ',' := fun c hc => hnc c (List.take_subset _ t hc)
      have ht2nc : ∀ c ∈ t2, c ≠ ',' := fun c hc => hnc c (List.drop_subset _ t hc)
      obtain ⟨m, k, hm, hmap, hjoin⟩ := ih t1 (by omega) ht1ne ht1nc
      refine ⟨m, k + 1, hm, ?_, ?_⟩
      · rw [splitComma_append, List.map_append, hmap, splitComma_no_comma t2 ht2nc]
        simp [ht2len, List.replicate_succ']
      · rw [splitComma_append, List.flatten_append, hjoin, splitComma_no_comma t2 ht2nc]
        simp [ht1, ht2]

/-- Structure of the Indian grouping: a digit string of length at most 3 is a
single group; a longer one splits into a leftmost group of 1 or 2 digits, then
groups of 2, then a final group of 3, concatenating back to the input. -/
theorem indianGroup_struct (l : List Char) (_hne : l ≠ []) (hnc : ∀ c ∈ l, c ≠ ',') :
    (l.length ≤ 3 → splitComma (indianGroup l) = [l]) ∧
    (3 < l.length → ∃ m k, (m = 1 ∨ m = 2) ∧
      (splitComma (indianGroup l)).map List.length = m :: List.replicate k 2 ++ [3] ∧
      (splitComma (indianGroup l)).flatten = l) := by
  constructor
  · intro hle
    rw [indianGroup, if_pos hle]
    exact splitComma_no_comma l hnc
  · intro hgt
    rw [indianGroup, if_neg (by omega)]
    set t1 : List Char := l.take (l.length - 3) with ht1
    set t2 : List Char := l.drop (l.length - 3) with ht2
    have ht1len : t1.length = l.length - 3 := by
      rw [ht1, List.length_take]
      omega
    have ht2len : t2.length = 3 := by
      rw [ht2, List.length_drop]
      omega
    have ht1ne : t1 ≠ [] := by
      intro h
      rw [h] at ht1len
      simp at ht1len
      omega
    have ht1nc : ∀ c ∈ t1, c ≠ ',' := fun c hc => hnc c (List.take_subset _ l hc)
    have ht2nc : ∀ c ∈ t2, c ≠ ',' := fun c hc => hnc c (List.drop_subset _ l hc)
    obtain ⟨m, k, hm, hmap, hjoin⟩ := groupTwos_struct t1.length t1 le_rfl ht1ne ht1nc
    refine ⟨m, k, hm, ?_, ?_⟩
    · rw [splitComma_append, List.map_append, hmap, splitComma_no_comma t2 ht2nc]
      simp [ht2len]
    · rw [splitComma_append, List.flatten_append, hjoin, splitComma_no_comma t2 ht2nc]
      simp [ht1, ht2]

theorem natDigits_mem : ∀ (n : ℕ), ∀ c ∈ natDigits n, ∃ d, d < 10 ∧ c = digitChar d := by
  intro n
  induction n using Nat.strong_induction_on with
  | _ n ih =>
    intro c hc
    rw [natDigits] at hc
    by_cases h : n < 10
    · rw [if_pos h] at hc
      simp at hc
      exact ⟨n, h, hc⟩
    · rw [if_neg h] at hc
      rcases List.mem_append.mp hc with h1 | h2
      · exact ih (n / 10) (Nat.div_lt_self (by omega) (by omega)) c h1
      · simp at h2
        exact ⟨n % 10, Nat.mod_lt _ (by omega), h2⟩

theorem natDigits_ne_nil (n : ℕ) : natDigits n ≠ [] := by
  rw [natDigits]
  by_cases h : n < 10
  · rw [if_pos h]
    simp
  · rw [if_neg h]
    simp

theorem natDigits_lt10 {n : ℕ} (h : n < 10) : natDigits n = [digitChar n] := by
  rw [natDigits, if_pos h]

theorem digitChar_ne_dot {d : ℕ} (h : d < 10) : digitChar d ≠ '.' := by
  interval_cases d <;> decide

theorem digitChar_ne_comma {d : ℕ} (h : d < 10) : digitChar d ≠ ',' := by
  interval_cases d <;> decide

theorem digitChar_inj : ∀ d < 10, ∀ e < 10, digitChar d = digitChar e → d = e := by
  decide

theorem natDigits_no_comma (n : ℕ) : ∀ c ∈ natDigits n, c ≠ ',' := by
  intro c hc
  obtain ⟨d, hd, rfl⟩ := natDigits_mem n c hc
  exact digitChar_ne_comma hd

theorem groupTwos_mem : ∀ (N : ℕ) (t : List Char), t.length ≤ N →
    ∀ c ∈ groupTwos t, c ∈ t ∨ c = ',' := by
  intro N
  induction N with
  | zero =>
    intro t hlen c hc
    have : t = [] := List.length_eq_zero.mp (Nat.le_zero.mp hlen)
    subst this
    rw [groupTwos] at hc
    simp at hc
  | succ N ih =>
    intro t hlen c hc
    by_cases hsmall : t.length ≤ 2
    · rw [groupTwos, if_pos hsmall] at hc
      exact Or.inl hc
    · rw [groupTwos, if_neg hsmall] at hc
      rcases List.mem_append.mp hc with h1 | h2
      · have hlen1 : (t.take (t.length - 2)).length ≤ N := by
          rw [List.length_take]
          omega
        rcases ih (t.take (t.length - 2)) hlen1 c h1 with h | h
        · exact Or.inl (List.take_subset _ t h)
        · exact Or.inr h
      · rcases List.mem_cons.mp h2 with h | h
        · exact Or.inr h
        · exact Or.inl (List.drop_subset _ t h)

theorem indianGroup_mem (s : List Char) : ∀ c ∈ indianGroup s, c ∈ s ∨ c = ',' := by
  intro c hc
  rw [indianGroup] at hc
  by_cases h : s.length ≤ 3
  · rw [if_pos h] at hc
    exact Or.inl hc
  · rw [if_neg h] at hc
    rcases List.mem_append.mp hc with h1 | h2
    · rcases groupTwos_mem _ _ le_rfl c h1 with h | h
      · exact Or.inl (List.take_subset _ s h)
      · exact Or.inr h
    · rcases List.mem_cons.mp h2 with h | h
      · exact Or.inr h
      · exact Or.inl (List.drop_subset _ s h)

theorem twoDigits_length {d : ℕ} (hd : d < 100) : (twoDigits d).length = 2 := by
  rw [twoDigits]
  by_cases h : d < 10
  · rw [if_pos h, natDigits_lt10 h]
    rfl
  · rw [if_neg h, natDigits, if_neg h, natDigits_lt10 (show d / 10 < 10 by omega)]
    rfl

theorem twoDigits_zero : twoDigits 0 = ['0', '0'] := by
  rw [twoDigits, if_pos (by norm_num), natDigits_lt10 (by norm_num)]
  rfl

theorem twoDigits_eq_00 {d : ℕ} (hd : d < 100) (h : twoDigits d = ['0', '0']) :
    d = 0 := by
  rw [twoDigits] at h
  by_cases hlt : d < 10
  · rw [if_pos hlt, natDigits_lt10 hlt] at h
    have hd0 : digitChar d = '0' := by simpa using h
    have h0 : digitChar d = digitChar 0 := by
      rw [hd0]
      decide
    exact digitChar_inj d hlt 0 (by norm_num) h0
  · exfalso
    rw [if_neg hlt, natDigits, if_neg hlt,
      natDigits_lt10 (show d / 10 < 10 by omega)] at h
    have hd0 : digitChar (d / 10) = '0' := by
      have := List.head_eq_of_cons_eq h
      simpa using this
    have h0 : digitChar (d / 10) = digitChar 0 := by
      rw [hd0]
      decide
    have := digitChar_inj (d / 10) (by omega) 0 (by norm_num) h0
    omega

theorem centsOf_mod_lt (a : ℚ) : centsOf a % 100 < 100 := Nat.mod_lt _ (by omega)

/-- For a non-negative amount, the ".2f" fractional part is "00" exactly when
the cents are a multiple of 100; in that case the output has no decimal point,
otherwise the output is the grouped integer digits followed by "." and the two
fractional digits. -/
theorem format_inr_fraction (a : ℚ) (ha : 0 ≤ a) :
    (twoDigits (centsOf a % 100)).length = 2 ∧
    (centsOf a % 100 = 0 → '.' ∉ (format_inr a).data) ∧
    (centsOf a % 100 ≠ 0 →
      format_inr a =
        ⟨('₹' :: indianGroup (natDigits (centsOf a / 100))) ++
          '.' :: twoDigits (centsOf a % 100)⟩) := by
  refine ⟨twoDigits_length (centsOf_mod_lt a), ?_, ?_⟩
  · intro h0
    rw [format_inr, if_neg (by linarith), inrNonneg]
    simp only [inrCore, h0, twoDigits_zero, if_true]
    intro hmem
    rcases List.mem_cons.mp hmem with h | h
    · exact absurd h.symm (by decide)
    · rcases indianGroup_mem _ _ h with h1 | h1
      · obtain ⟨d, hd, hcd⟩ := natDigits_mem _ _ h1
        exact digitChar_ne_dot hd hcd.symm
      · exact absurd h1 (by decide)
  · intro hne
    rw [format_inr, if_neg (by linarith), inrNonneg]
    have : twoDigits (centsOf a % 100) ≠ ['0', '0'] := by
      intro h
      exact hne (twoDigits_eq_00 (centsOf_mod_lt a) h)
    simp only [inrCore, if_neg this]
    simp [List.cons_append]

/-- For a negative amount, `format_inr` is the minus sign followed by the
formatting of the absolute value. -/
theorem format_inr_neg (a : ℚ) (ha : a < 0) :
    format_inr a = "-" ++ format_inr (-a) := by
  apply String.ext
  rw [format_inr, if_pos ha, format_inr, if_neg (by linarith)]
  show '-' :: '₹' :: (inrNonneg (-a)).drop 1 = ("-" ++ String.mk (inrNonneg (-a))).data
  rw [inrNonneg]
  rfl

/-- Claim C3: format_inr renders the four worked examples as stated; formats a
negative amount by prepending the minus sign to the formatting of the absolute
value; pads the fractional part to exactly 2 digits and omits it together with
the decimal point exactly when it is "00"; and groups the integer digits as a
last group of 3 preceded by pairs of 2 with an unseparated leftover group of 1
or 2 digits. -/
theorem claim_C3 :
    format_inr (1234567.89 : ℚ) = "₹12,34,567.89" ∧
    format_inr 50000 = "₹50,000" ∧
    format_inr 100 = "₹100" ∧
    format_inr (-1234.5) = "-₹1,234.50" ∧
    (∀ a : ℚ, a < 0 → format_inr a = "-" ++ format_inr (-a)) ∧
    (∀ a : ℚ, 0 ≤ a →
      (twoDigits (centsOf a % 100)).length = 2 ∧
      (centsOf a % 100 = 0 → '.' ∉ (format_inr a).data) ∧
      (centsOf a % 100 ≠ 0 →
        format_inr a =
          ⟨('₹' :: indianGroup (natDigits (centsOf a / 100))) ++
            '.' :: twoDigits (centsOf a % 100)⟩)) ∧
    (∀ l : List Char, l ≠ [] → (∀ c ∈ l, c ≠ ',') →
      (l.length ≤ 3 → splitComma (indianGroup l) = [l]) ∧
      (3 < l.length → ∃ m k, (m = 1 ∨ m = 2) ∧
        (splitComma (indianGroup l)).map List.length = m :: List.replicate k 2 ++ [3] ∧
        (splitComma (indianGroup l)).flatten = l)) := by
  refine ⟨?_, format_inr_ex2, format_inr_ex3, format_inr_ex4,
    format_inr_neg, format_inr_fraction, indianGroup_struct⟩
  have h : (1234567.89 : ℚ) = 123456789 / 100 := by norm_num
  rw [h]
  exact format_inr_ex1

/-- Claim C3 witness: the negative-amount law and the grouping law applied at
concrete inputs. -/
theorem claim_C3_witness :
    format_inr (-1) = "-" ++ format_inr 1 ∧
    splitComma (indianGroup ['1', '2', '3']) = [['1', '2', '3']] := by
  constructor
  · have h := claim_C3.2.2.2.2.1 (-1) (by norm_num)
    simpa using h
  · exact (claim_C3.2.2.2.2.2.2 ['1', '2', '3'] (by decide) (by decide)).1 (by decide)

/-- Python whitespace for `str.split()` with no separator. -/
def pyIsSpace (c : Char) : Bool :=
  c = ' ' || c = '\t' || c = '\n' || c = '\r' || c = '\x0b' || c = '\x0c'

/-- Model of Python `text.split()`: maximal runs of non-whitespace characters,
in order; `acc` holds the current word reversed. -/
def pyWordsAux : List Char → List Char → List (List Char)
  | [], acc => if acc = [] then [] else [acc.reverse]
  | c :: rest, acc =>
    if pyIsSpace c then
      if acc = [] then pyWordsAux rest []
      else acc.reverse :: pyWordsAux rest []
    else pyWordsAux rest (c :: acc)

def pyWords (l : List Char) : List (List Char) := pyWordsAux l []

/-- Model of `" ".join(text.split())`: whitespace runs collapsed to single
spaces, ends trimmed. -/
def collapse (l : List Char) : List Char := List.intercalate [' '] (pyWords l)

/-- Model of Python `l.rsplit(' ', 1)[0]`: everything before the last space,
or the whole list if it has no space. -/
def rsplitDrop (l : List Char) : List Char :=
  if ' ' ∈ l then ((l.reverse.dropWhile (fun c => c ≠ ' ')).drop 1).reverse
  else l

/-- Embedding of `summarize_short(text, max_length)` (src/utils.py lines
19-52). -/
def summarize_short (text : String) (max_length : ℕ) : String :=
  if text = "" then ""
  else
    let t := collapse text.data
    if t.length ≤ max_length then ⟨t⟩
    else ⟨rsplitDrop (t.take max_length) ++ ['.', '.', '.']⟩

theorem dropWhile_headI_not {p : Char → Bool} :
    ∀ l : List Char, l.dropWhile p ≠ [] → p ((l.dropWhile p).headI) = false := by
  intro l
  induction l with
  | nil => simp [List.dropWhile]
  | cons c t ih =>
    by_cases hc : p c
    · simp only [List.dropWhile, hc]
      exact ih
    · intro _
      simp only [List.dropWhile, hc]
      simpa using hc

/-- Structure of `rsplit(' ', 1)[0]` when the list has a space: the input is
the result, a space, and a space-free tail. -/
theorem rsplitDrop_spec (l : List Char) (h : ' ' ∈ l) :
    ∃ suf, l = rsplitDrop l ++ ' ' :: suf ∧ ' ' ∉ suf := by
  set r := l.reverse with hr
  set dw := r.dropWhile (fun c => c ≠ ' ') with hdw
  set tw := r.takeWhile (fun c => c ≠ ' ') with htw
  have hsplit : tw ++ dw = r := List.takeWhile_append_dropWhile _ _
  have hdwne : dw ≠ [] := by
    intro hnil
    have hmem : ' ' ∈ r := by
      rw [hr]
      simpa using h
    rw [hnil, List.append_nil] at hsplit
    rw [← hsplit] at hmem
    have := List.mem_takeWhile_imp hmem
    simp at this
  have hhead : ((dw.headI : Char) ≠ ' ') = False := by
    have := dropWhile_headI_not (p := fun c => c ≠ ' ') r hdwne
    rw [← hdw] at this
    simpa using this
  obtain ⟨d, dtail, hd⟩ : ∃ d dtail, dw = d :: dtail := by
    cases hdwcase : dw with
    | nil => exact absurd hdwcase hdwne
    | cons d dtail => exact ⟨d, dtail, rfl⟩
  have hdsp : d = ' ' := by
    rw [hd] at hhead
    simpa using hhead
  refine ⟨tw.reverse, ?_, ?_⟩
  · have hrs : rsplitDrop l = dtail.reverse := by
      rw [rsplitDrop, if_pos h, ← hdw, hd]
      simp
    rw [hrs]
    have : l = r.reverse := by rw [hr, List.reverse_reverse]
    rw [this, ← hsplit, hd, hdsp]
    simp
  · intro hmem
    have hmem2 : ' ' ∈ tw := by simpa using hmem
    have := List.mem_takeWhile_imp hmem2
    simp at this

theorem rsplitDrop_leading (l : List Char) : rsplitDrop l <+: l := by
  by_cases h : ' ' ∈ l
  · obtain ⟨suf, heq, _⟩ := rsplitDrop_spec l h
    exact ⟨' ' :: suf, heq.symm⟩
  · rw [rsplitDrop, if_neg h]

theorem rsplitDrop_no_space (l : List Char) (h : ' ' ∉ l) : rsplitDrop l = l := by
  rw [rsplitDrop, if_neg h]

/-- Claim C8 counterexample: summarize_short("abcdef g", 3) = "abc...", which
cuts the word "abcdef" in the middle: the text before the ellipsis is not the
space-joined concatenation of any initial run of whole words. -/
theorem claim_C8_counterexample :
    summarize_short "abcdef g" 3 = "abc..." ∧
    collapse (String.data "abcdef g") = String.data "abcdef g" ∧
    pyWords (String.data "abcdef g") = [['a', 'b', 'c', 'd', 'e', 'f'], ['g']] ∧
    (collapse (String.data "abcdef g")).take 3 = ['a', 'b', 'c'] ∧
    ' ' ∉ (collapse (String.data "abcdef g")).take 3 ∧
    "abc..." ≠ "..." := by
  exact ⟨by decide, by decide, by decide, by decide, by decide, by decide⟩

/-- Claim C8 (amended): summarize_short collapses whitespace runs to single
spaces and trims the ends; empty input gives empty output; if the collapsed
text fits in maxLength it is returned unchanged; otherwise the collapsed text
is cut at maxLength characters and everything from the last space of the cut
onward is dropped (dropping the trailing partial word; when the cut contains
no space it is kept whole, which can cut mid-word), and an ellipsis marker is
appended. -/
theorem claim_C8 (text : String) (maxLength : ℕ) :
    (text = "" → summarize_short text maxLength = "") ∧
    (text ≠ "" → (collapse text.data).length ≤ maxLength →
      summarize_short text maxLength = ⟨collapse text.data⟩) ∧
    (text ≠ "" → maxLength < (collapse text.data).length →
      summarize_short text maxLength =
        ⟨rsplitDrop ((collapse text.data).take maxLength) ++ ['.', '.', '.']⟩ ∧
      rsplitDrop ((collapse text.data).take maxLength) <+:
        (collapse text.data).take maxLength ∧
      (' ' ∈ (collapse text.data).take maxLength →
        ∃ suf, (collapse text.data).take maxLength =
          rsplitDrop ((collapse text.data).take maxLength) ++ ' ' :: suf ∧
          ' ' ∉ suf) ∧
      (' ' ∉ (collapse text.data).take maxLength →
        rsplitDrop ((collapse text.data).take maxLength) =
          (collapse text.data).take maxLength)) ∧
    summarize_short "a b c d e" 3 = "a..." := by
  refine ⟨?_, ?_, ?_, by decide⟩
  · intro h
    rw [summarize_short, if_pos h]
  · intro hne hle
    rw [summarize_short, if_neg hne]
    simp only [if_pos hle]
  · intro hne hgt
    refine ⟨?_, rsplitDrop_leading _, fun h => rsplitDrop_spec _ h,
      fun h => rsplitDrop_no_space _ h⟩
    rw [summarize_short, if_neg hne]
    simp only [if_neg (not_le.mpr hgt)]

/-- Claim C8 witness: the truncation branch applied at a concrete input. -/
theorem claim_C8_witness : summarize_short "hello world" 8 = "hello..." := by
  have h := ((claim_C8 "hello world" 8).2.2.1 (by decide) (by decide)).1
  rw [h]
  decide

/-- Strip trailing zero characters (used by the decimal rendering model). -/
def dropTrailingZeros (l : List Char) : List Char :=
  (l.reverse.dropWhile (fun c => c = '0')).reverse

/-- Western thousands grouping: a comma before every group of three digits
taken from the right. -/
def groupThrees (l : List Char) : List Char :=
  if l.length ≤ 3 then l
  else groupThrees (l.take (l.length - 3)) ++ ',' :: l.drop (l.length - 3)
termination_by l.length
decreasing_by simp only [List.length_take]; omega

/-- Decimal expansion model of the fractional part (17 digits, trailing zeros
stripped, empty when zero): stands in for Python's shortest float repr inside
the `:,` format interpolations. -/
def fracPartChars (q : ℚ) : List Char :=
  let d := ((q * 10 ^ 17).floor).toNat
  if d = 0 then []
  else '.' :: dropTrailingZeros
    (List.replicate (17 - (natDigits d).length) '0' ++ natDigits d)

def fmtCommaNonneg (q : ℚ) : List Char :=
  groupThrees (natDigits (q.floor).toNat) ++ fracPartChars (q - (q.floor : ℚ))

/-- Model of a Python f-string interpolation `{x:,}`: thousands-separated
decimal rendering. -/
def fmtComma (q : ℚ) : String :=
  if q < 0 then ⟨'-' :: fmtCommaNonneg (-q)⟩ else ⟨fmtCommaNonneg q⟩

/-- Model of a Python f-string interpolation `{x:.1f}`. -/
def fmt1f (q : ℚ) : String :=
  let a := if q < 0 then -q else q
  let c := ((a * 10 + 1 / 2).floor).toNat
  let s := natDigits (c / 10) ++ '.' :: natDigits (c % 10)
  if q < 0 then ⟨'-' :: s⟩ else ⟨s⟩

/-- Model of Python `str.strip()`: whitespace removed from both ends. -/
def pyStrip (s : String) : String :=
  ⟨((s.data.dropWhile pyIsSpace).reverse.dropWhile pyIsSpace).reverse⟩

/-- The Generator Gateway: given the system-message content and the
human-message content, the model either returns generated text or fails with
an error detail string (a raised exception in the Python code). -/
def Gen : Type := String → String → Except String String

/-- One entry of an agent's conversation_history (src/agents.py lines 85-91
and 100-105): a success entry holds prompt, context, response and timestamp; a
failure entry holds the error text (and the traceback, modelled here by the
error text) and timestamp, with no response field. -/
inductive HistEntry where
  | success (role prompt context response timestamp : String)
  | failure (role error traceback timestamp : String)
deriving DecidableEq, Repr

/-- The base agent dataclass (src/agents.py lines 24-46). -/
structure Agent where
  role : String
  system_prompt : String
  conversation_history : List HistEntry
deriving DecidableEq, Repr

/-- The SystemMessage content built by Agent.respond (src/agents.py lines
60-66). -/
def systemContent (ag : Agent) (context : String) : String :=
  "\nनियम: केवल देवनागरी में और सिर्फ़ हिंदी में उत्तर दें। अंग्रेजी का उपयोग न करें।\n\n"
    ++ ag.system_prompt ++ "\n\n" ++ context ++ "\n"

/-- The HumanMessage content built by Agent.respond (src/agents.py lines
68-72). -/
def humanContent (prompt : String) : String :=
  "\nप्रश्न: " ++ prompt ++ "\n\nउत्तर (केवल हिंदी में):\n"

/-- Embedding of Agent.respond (src/agents.py lines 48-106): on success the
stripped response is returned and a success entry appended; on generator
failure the exception is caught, a failure entry appended, and the formatted
error string returned in place of a response. `now` stands for the
datetime.now() timestamp. -/
def Agent.respond (ag : Agent) (llm : Gen) (now : String) (prompt context : String) :
    String × Agent :=
  match llm (systemContent ag context) (humanContent prompt) with
  | .ok response =>
    (pyStrip response,
     { ag with conversation_history :=
         ag.conversation_history ++ [.success ag.role prompt context response now] })
  | .error e =>
    ("त्रुटि: " ++ e,
     { ag with conversation_history :=
         ag.conversation_history ++ [.failure ag.role e e now] })

/-- AdvisorAgent construction (src/agents.py lines 122-127). -/
def mkAdvisorAgent : Agent :=
  { role := "वित्तीय सलाहकार",
    system_prompt := "आप एक अनुभवी वित्तीय सलाहकार हैं जो भारतीय निवेशकों को सलाह देते हैं।",
    conversation_history := [] }

/-- RiskAnalystAgent construction (src/agents.py lines 178-183). -/
def mkRiskAgent : Agent :=
  { role := "जोखिम विश्लेषक",
    system_prompt := "आप एक जोखिम विश्लेषण विशेषज्ञ हैं जो वित्तीय सुरक्षा पर ध्यान देते हैं।",
    conversation_history := [] }

/-- PlannerAgent construction (src/agents.py lines 238-243). -/
def mkPlannerAgent : Agent :=
  { role := "वित्तीय योजनाकर्त्ता",
    system_prompt := "आप एक व्यापक वित्तीय योजनाकार हैं जो व्यावहारिक योजनाएं बनाते हैं।",
    conversation_history := [] }

/-- The user_data dictionary consumed by the agents (monthly_income,
target_amount, years, risk_profile). -/
structure UserData where
  monthly_income : ℚ
  target_amount : ℚ
  years : ℤ
  risk_profile : String
deriving DecidableEq, Repr

/-- AdvisorAgent.analyze's prompt template (src/agents.py lines 140-158). -/
def advisorPrompt (user : UserData) (sip : SipResult) : String :=
  "\nउपयोगकर्ता की जानकारी:\n- मासिक आय: ₹" ++ fmtComma user.monthly_income
    ++ "\n- लक्ष्य राशि: ₹" ++ fmtComma user.target_amount
    ++ "\n- समय सीमा: " ++ toString user.years
    ++ " वर्ष\n- जोखिम प्रोफाइल: " ++ user.risk_profile
    ++ "\n\nगणना परिणाम:\n- आवश्यक मासिक SIP: ₹" ++ fmtComma sip.monthly_sip
    ++ "\n- कुल निवेश: ₹" ++ fmtComma sip.total_investment
    ++ "\n- अपेक्षित रिटर्न: ₹" ++ fmtComma sip.expected_returns
    ++ "\n\nकृपया उपयोगकर्ता को प्रारंभिक वित्तीय सलाह दें। निम्नलिखित बातों का उल्लेख करें:\n1. क्या यह लक्ष्य उनकी आय के अनुसार संभव है?\n2. किस प्रकार के निवेश की सिफारिश करेंगे?\n3. बचत और खर्च का अनुपात क्या होना चाहिए?\n\nसंक्षिप्त और स्पष्ट उत्तर दें।\n"

def advisorContext : String := "भारतीय बाजार और निवेश विकल्पों के बारे में सलाह दें।"

/-- AdvisorAgent.analyze (src/agents.py lines 129-161). -/
def advisorAnalyze (llm : Gen) (ag : Agent) (user : UserData) (sip : SipResult)
    (now : String) : String × Agent :=
  ag.respond llm now (advisorPrompt user sip) advisorContext

/-- Python float division: raises ZeroDivisionError on a zero divisor. -/
def pyDiv (a b : ℚ) : Except String ℚ :=
  if b = 0 then .error "float division by zero" else .ok (a / b)

/-- RiskAnalystAgent.analyze's prompt template (src/agents.py lines 200-218),
with the already-computed SIP-to-income percentage `pct`. -/
def riskPrompt (user : UserData) (sip : SipResult) (pct : ℚ)
    (advisor_suggestion : String) : String :=
  "\nसलाहकार का सुझाव:\n" ++ advisor_suggestion
    ++ "\n\nवित्तीय विश्लेषण:\n- आय का " ++ fmt1f pct
    ++ "% SIP में जाएगा\n- जोखिम स्तर: " ++ user.risk_profile
    ++ "\n- निवेश अवधि: " ++ toString user.years
    ++ " वर्ष\n- मासिक आय: ₹" ++ fmtComma user.monthly_income
    ++ "\n- आवश्यक SIP: ₹" ++ fmtComma sip.monthly_sip
    ++ "\n\nकृपया जोखिम विश्लेषण करें:\n1. क्या यह योजना सुरक्षित है?\n2. क्या कोई जोखिम हैं?\n3. सुरक्षित विकल्प क्या हैं?\n4. आपातकालीन निधि की सिफारिश (आय का 6-12 महीने)\n\nसंक्षिप्त और स्पष्ट उत्तर दें।\n"

def riskContext : String := "वित्तीय सुरक्षा और जोखिम प्रबंधन पर ध्यान दें।"

/-- RiskAnalystAgent.analyze (src/agents.py lines 185-221): the SIP-to-income
percentage is computed before and outside the fail-soft try block of
Agent.respond, so a zero monthly_income propagates a ZeroDivisionError. -/
def riskAnalyze (llm : Gen) (ag : Agent) (user : UserData) (sip : SipResult)
    (advisor_suggestion : String) (now : String) : Except String (String × Agent) :=
  match pyDiv sip.monthly_sip user.monthly_income with
  | .error e => .error e
  | .ok q => .ok (ag.respond llm now (riskPrompt user sip (q * 100) advisor_suggestion) riskContext)

/-- PlannerAgent.create_plan's prompt template (src/agents.py lines 259-293). -/
def plannerPrompt (user : UserData) (sip : SipResult)
    (advisor_advice risk_analysis : String) : String :=
  "\nसलाहकार की राय:\n" ++ advisor_advice
    ++ "\n\nजोखिम विश्लेषक की राय:\n" ++ risk_analysis
    ++ "\n\nउपयोगकर्ता डेटा:\n- मासिक आय: ₹" ++ fmtComma user.monthly_income
    ++ "\n- लक्ष्य: ₹" ++ fmtComma user.target_amount
    ++ " (" ++ toString user.years
    ++ " वर्ष में)\n- आवश्यक SIP: ₹" ++ fmtComma sip.monthly_sip
    ++ "\n- जोखिम स्तर: " ++ user.risk_profile
    ++ "\n\nकृपया एक विस्तृत वित्तीय योजना बनाएं जिसमें शामिल हो:\n\n1. मासिक बजट विभाजन (आय का प्रतिशत):\n   - आवश्यक खर्च (किराया, भोजन, बिल): __% (₹__)\n   - बचत/निवेश (SIP): __% (₹__)\n   - आपातकालीन निधि: __% (₹__)\n   - विवेकाधीन खर्च: __% (₹__)\n\n2. निवेश रणनीति:\n   - SIP राशि: ₹" ++ fmtComma sip.monthly_sip
    ++ "\n   - निवेश प्रकार (इक्विटी/डेट/हाइब्रिड)\n   - अन्य निवेश साधन\n\n3. कार्य योजना:\n   - पहले 3 महीने में क्या करें\n   - 6 महीने की योजना\n   - 12 महीने की योजना\n\n4. जोखिम चेतावनी\n\nसंक्षिप्त, स्पष्ट और व्यावहारिक योजना बनाएं।\n"

def plannerContext : String := "एक संरचित और कार्यान्वयन योग्य योजना बनाएं।"

/-- PlannerAgent.create_plan (src/agents.py lines 245-296). -/
def plannerCreatePlan (llm : Gen) (ag : Agent) (user : UserData) (sip : SipResult)
    (advisor_advice risk_analysis : String) (now : String) : String × Agent :=
  ag.respond llm now (plannerPrompt user sip advisor_advice risk_analysis) plannerContext

/-- Embedding of run_multi_agent_flow (src/agents.py lines 299-362): fresh
agents, then advisor, risk analyst and planner strictly in sequence, each
later stage's prompt built from the earlier outputs; `now1`-`now3` stand for
the three timestamps. -/
def run_multi_agent_flow (llm : Gen) (user : UserData) (sip : SipResult)
    (now1 now2 now3 : String) : Except String (String × String × String) :=
  let advisor := mkAdvisorAgent
  let risk_analyst := mkRiskAgent
  let planner := mkPlannerAgent
  let a := advisorAnalyze llm advisor user sip now1
  match riskAnalyze llm risk_analyst user sip a.1 now2 with
  | .error e => .error e
  | .ok rk =>
    let p := plannerCreatePlan llm planner user sip a.1 rk.1 now3
    .ok (a.1, rk.1, p.1)

/-- `sub` occurs verbatim (contiguously) inside `big`. -/
def strContains (big sub : String) : Prop := sub.data <:+: big.data

theorem strContains_self (s : String) : strContains s s := ⟨[], [], by simp⟩

theorem strContains_appL (a : String) {big sub : String} (h : strContains big sub) :
    strContains (a ++ big) sub := by
  obtain ⟨s, t, heq⟩ := h
  refine ⟨a.data ++ s, t, ?_⟩
  show a.data ++ s ++ sub.data ++ t = a.data ++ big.data
  rw [← heq]
  simp [List.append_assoc]

theorem strContains_appR (a : String) {big sub : String} (h : strContains big sub) :
    strContains (big ++ a) sub := by
  obtain ⟨s, t, heq⟩ := h
  refine ⟨s, t ++ a.data, ?_⟩
  show s ++ sub.data ++ (t ++ a.data) = big.data ++ a.data
  rw [← heq]
  simp [List.append_assoc]

/-- The risk stage's prompt contains the advisor suggestion verbatim. -/
theorem riskPrompt_contains (user : UserData) (sip : SipResult) (pct : ℚ)
    (adv : String) : strContains (riskPrompt user sip pct adv) adv := by
  rw [riskPrompt]
  repeat first
    | exact strContains_appL _ (strContains_self _)
    | apply strContains_appR

/-- The planner stage's prompt contains the advisor advice verbatim. -/
theorem plannerPrompt_contains_advisor (user : UserData) (sip : SipResult)
    (adv rk : String) : strContains (plannerPrompt user sip adv rk) adv := by
  rw [plannerPrompt]
  repeat first
    | exact strContains_appL _ (strContains_self _)
    | apply strContains_appR

/-- The planner stage's prompt contains the risk analysis verbatim. -/
theorem plannerPrompt_contains_risk (user : UserData) (sip : SipResult)
    (adv rk : String) : strContains (plannerPrompt user sip adv rk) rk := by
  rw [plannerPrompt]
  repeat first
    | exact strContains_appL _ (strContains_self _)
    | apply strContains_appR

/-- A successful pipeline run evaluates the three stages in dependency order:
the risk output is the risk agent's response to the prompt built from the
advisor output, and the planner output responds to the prompt built from both
earlier outputs. -/
theorem run_flow_ok_shape (llm : Gen) (user : UserData) (sip : SipResult)
    (n1 n2 n3 : String) (a r p : String)
    (h : run_multi_agent_flow llm user sip n1 n2 n3 = .ok (a, r, p)) :
    a = (advisorAnalyze llm mkAdvisorAgent user sip n1).1 ∧
    r = (mkRiskAgent.respond llm n2
          (riskPrompt user sip (sip.monthly_sip / user.monthly_income * 100) a)
          riskContext).1 ∧
    p = (mkPlannerAgent.respond llm n3 (plannerPrompt user sip a r)
          plannerContext).1 := by
  by_cases hinc : user.monthly_income = 0
  · simp only [run_multi_agent_flow, riskAnalyze, pyDiv, if_pos hinc] at h
    exact absurd h (by simp)
  · simp only [run_multi_agent_flow, riskAnalyze, pyDiv, if_neg hinc,
      plannerCreatePlan] at h
    rw [Except.ok.injEq] at h
    simp only [Prod.mk.injEq] at h
    obtain ⟨ha, hr, hp⟩ := h
    refine ⟨ha.symm, ?_, ?_⟩
    · rw [← ha]
      exact hr.symm
    · rw [← ha, ← hr]
      exact hp.symm

/-- With a non-zero monthly income the pipeline completes, returning the three
stage outputs in dependency order. -/
theorem run_flow_completes (llm : Gen) (user : UserData) (sip : SipResult)
    (n1 n2 n3 : String) (hinc : user.monthly_income ≠ 0) :
    run_multi_agent_flow llm user sip n1 n2 n3 =
      .ok ((advisorAnalyze llm mkAdvisorAgent user sip n1).1,
        (mkRiskAgent.respond llm n2 (riskPrompt user sip
          (sip.monthly_sip / user.monthly_income * 100)
          (advisorAnalyze llm mkAdvisorAgent user sip n1).1) riskContext).1,
        (mkPlannerAgent.respond llm n3 (plannerPrompt user sip
          (advisorAnalyze llm mkAdvisorAgent user sip n1).1
          (mkRiskAgent.respond llm n2 (riskPrompt user sip
            (sip.monthly_sip / user.monthly_income * 100)
            (advisorAnalyze llm mkAdvisorAgent user sip n1).1) riskContext).1)
          plannerContext).1) := by
  simp only [run_multi_agent_flow, riskAnalyze, pyDiv, if_neg hinc, plannerCreatePlan]

/-- With a zero monthly income the risk stage's ratio division raises and the
pipeline propagates the ZeroDivisionError (no fail-soft handling applies). -/
theorem run_flow_div_zero (llm : Gen) (user : UserData) (sip : SipResult)
    (n1 n2 n3 : String) (hinc : user.monthly_income = 0) :
    run_multi_agent_flow llm user sip n1 n2 n3 = .error "float division by zero" := by
  simp only [run_multi_agent_flow, riskAnalyze, pyDiv, if_pos hinc]

/-- A concrete user_data value for witnesses. -/
def user0 : UserData :=
  { monthly_income := 1, target_amount := 1, years := 1, risk_profile := "r" }

/-- A concrete sip_calc value for witnesses. -/
def sip0 : SipResult :=
  { monthly_sip := 1, total_investment := 1, expected_returns := 1, total_value := 1 }

/-- A generator that always succeeds with a fixed text. -/
def okLlm : Gen := fun _ _ => .ok "उत्तर"

/-- A generator behaviour that fails exactly on the risk stage (recognised by
that stage's system-message content) and succeeds with empty text elsewhere. -/
def failRiskLlm : Gen := fun sys _ =>
  if sys = systemContent mkRiskAgent riskContext then .error "boom" else .ok ""

/-- Claim C4: for every user_data, sip_calc and generator behaviour, the risk
prompt contains the advisor output verbatim, the planner prompt contains both
earlier outputs verbatim, and any completed run's three outputs are produced
by exactly those prompts in the order advisor, risk analyst, planner. -/
theorem claim_C4 :
    (∀ (user : UserData) (sip : SipResult) (pct : ℚ) (adv : String),
      strContains (riskPrompt user sip pct adv) adv) ∧
    (∀ (user : UserData) (sip : SipResult) (adv rk : String),
      strContains (plannerPrompt user sip adv rk) adv ∧
      strContains (plannerPrompt user sip adv rk) rk) ∧
    (∀ (llm : Gen) (user : UserData) (sip : SipResult) (n1 n2 n3 a r p : String),
      run_multi_agent_flow llm user sip n1 n2 n3 = .ok (a, r, p) →
      a = (advisorAnalyze llm mkAdvisorAgent user sip n1).1 ∧
      r = (mkRiskAgent.respond llm n2
            (riskPrompt user sip (sip.monthly_sip / user.monthly_income * 100) a)
            riskContext).1 ∧
      p = (mkPlannerAgent.respond llm n3 (plannerPrompt user sip a r)
            plannerContext).1) :=
  ⟨riskPrompt_contains,
   fun user sip adv rk =>
     ⟨plannerPrompt_contains_advisor user sip adv rk,
      plannerPrompt_contains_risk user sip adv rk⟩,
   run_flow_ok_shape⟩

/-- Claim C4 witness: the containment laws at concrete inputs, and the wiring
law applied to a concrete completed run. -/
theorem claim_C4_witness :
    strContains (riskPrompt user0 sip0 100 "सलाह") "सलाह" ∧
    strContains (plannerPrompt user0 sip0 "सलाह" "जोखिम") "सलाह" ∧
    strContains (plannerPrompt user0 sip0 "सलाह" "जोखिम") "जोखिम" ∧
    (advisorAnalyze okLlm mkAdvisorAgent user0 sip0 "t").1 =
      (advisorAnalyze okLlm mkAdvisorAgent user0 sip0 "t").1 := by
  refine ⟨claim_C4.1 user0 sip0 100 "सलाह",
    (claim_C4.2.1 user0 sip0 "सलाह" "जोखिम").1,
    (claim_C4.2.1 user0 sip0 "सलाह" "जोखिम").2, ?_⟩
  have h := run_flow_completes okLlm user0 sip0 "t" "t" "t" (by norm_num [user0])
  exact ((claim_C4.2.2 okLlm user0 sip0 "t" "t" "t" _ _ _ h).1).symm

/-- Claim C10: the risk stage's SIP-to-income percentage is a plain division
outside the fail-soft handler; with positive monthly_income it is well-defined
and the pipeline always returns a triple, while with zero monthly_income the
division error aborts the pipeline. -/
theorem claim_C10 (llm : Gen) (user : UserData) (sip : SipResult)
    (n1 n2 n3 : String) :
    (0 < user.monthly_income →
      ∃ a r p, run_multi_agent_flow llm user sip n1 n2 n3 = .ok (a, r, p)) ∧
    (user.monthly_income = 0 →
      run_multi_agent_flow llm user sip n1 n2 n3 = .error "float division by zero") := by
  constructor
  · intro hpos
    exact ⟨_, _, _, run_flow_completes llm user sip n1 n2 n3 (ne_of_gt hpos)⟩
  · intro hzero
    exact run_flow_div_zero llm user sip n1 n2 n3 hzero

/-- Claim C10 witness: a concrete run with positive income completes. -/
theorem claim_C10_witness :
    ∃ a r p, run_multi_agent_flow okLlm user0 sip0 "t" "t" "t" = .ok (a, r, p) :=
  (claim_C10 okLlm user0 sip0 "t" "t" "t").1 (by norm_num [user0])

/-- Claim C5 counterexample: a generator behaviour that fails on stage 2 only
but answers the empty string on the successful stages makes
run_multi_agent_flow return an empty first and third output, refuting "three
non-empty strings". -/
theorem claim_C5_counterexample :
    failRiskLlm (systemContent mkAdvisorAgent advisorContext)
      (humanContent (advisorPrompt user0 sip0)) = .ok "" ∧
    failRiskLlm (systemContent mkRiskAgent riskContext)
      (humanContent (riskPrompt user0 sip0
        (sip0.monthly_sip / user0.monthly_income * 100) "")) = .error "boom" ∧
    failRiskLlm (systemContent mkPlannerAgent plannerContext)
      (humanContent (plannerPrompt user0 sip0 "" "त्रुटि: boom")) = .ok "" ∧
    run_multi_agent_flow failRiskLlm user0 sip0 "t" "t" "t" =
      .ok ("", "त्रुटि: boom", "") := by
  refine ⟨?_, ?_, ?_, ?_⟩
  · simp only [failRiskLlm]
    rw [if_neg (by decide)]
  · simp only [failRiskLlm]
    simp
  · simp only [failRiskLlm]
    rw [if_neg (by decide)]
  · have hadv : failRiskLlm (systemContent mkAdvisorAgent advisorContext)
        (humanContent (advisorPrompt user0 sip0)) = .ok "" := by
      simp only [failRiskLlm]
      rw [if_neg (by decide)]
    have hA : (advisorAnalyze failRiskLlm mkAdvisorAgent user0 sip0 "t").1 = "" := by
      simp only [advisorAnalyze, Agent.respond, hadv]
      decide
    have hrisk : failRiskLlm (systemContent mkRiskAgent riskContext)
        (humanContent (riskPrompt user0 sip0
          (sip0.monthly_sip / user0.monthly_income * 100) "")) = .error "boom" := by
      simp only [failRiskLlm]
      simp
    have hR : (mkRiskAgent.respond failRiskLlm "t"
        (riskPrompt user0 sip0 (sip0.monthly_sip / user0.monthly_income * 100) "")
        riskContext).1 = "त्रुटि: boom" := by
      simp only [Agent.respond, hrisk]
      decide
    have hplan : failRiskLlm (systemContent mkPlannerAgent plannerContext)
        (humanContent (plannerPrompt user0 sip0 "" "त्रुटि: boom")) = .ok "" := by
      simp only [failRiskLlm]
      rw [if_neg (by decide)]
    have hP : (mkPlannerAgent.respond failRiskLlm "t"
        (plannerPrompt user0 sip0 "" "त्रुटि: boom") plannerContext).1 = "" := by
      simp only [Agent.respond, hplan]
      decide
    have hrun := run_flow_completes failRiskLlm user0 sip0 "t" "t" "t"
      (by norm_num [user0])
    rw [hA] at hrun
    rw [hR] at hrun
    rw [hP] at hrun
    exact hrun

/-- Claim C5 (amended): on generator failure, Agent.respond catches the error,
appends a failure record {role, error, traceback, timestamp} with no response
field, and returns the formatted error string; when the generator fails on
stage 2 only (and monthly_income is non-zero), the pipeline still returns
three strings, whose second is the non-empty placeholder error string, the
first and third being the trimmed stage outputs (non-empty whenever those
trimmed responses are), and the planner prompt receives the placeholder as its
risk-text context. -/
theorem claim_C5 :
    (∀ (ag : Agent) (llm : Gen) (now prompt context e : String),
      llm (systemContent ag context) (humanContent prompt) = .error e →
      ag.respond llm now prompt context =
        ("त्रुटि: " ++ e,
         { ag with conversation_history :=
             ag.conversation_history ++ [HistEntry.failure ag.role e e now] })) ∧
    (∀ (llm : Gen) (user : UserData) (sip : SipResult) (n1 n2 n3 s1 s3 e : String),
      user.monthly_income ≠ 0 →
      llm (systemContent mkAdvisorAgent advisorContext)
        (humanContent (advisorPrompt user sip)) = .ok s1 →
      llm (systemContent mkRiskAgent riskContext)
        (humanContent (riskPrompt user sip
          (sip.monthly_sip / user.monthly_income * 100) (pyStrip s1))) = .error e →
      llm (systemContent mkPlannerAgent plannerContext)
        (humanContent (plannerPrompt user sip (pyStrip s1) ("त्रुटि: " ++ e))) = .ok s3 →
      run_multi_agent_flow llm user sip n1 n2 n3 =
        .ok (pyStrip s1, "त्रुटि: " ++ e, pyStrip s3) ∧
      ("त्रुटि: " ++ e) ≠ "" ∧
      strContains (plannerPrompt user sip (pyStrip s1) ("त्रुटि: " ++ e))
        ("त्रुटि: " ++ e)) := by
  constructor
  · intro ag llm now prompt context e herr
    simp only [Agent.respond, herr]
  · intro llm user sip n1 n2 n3 s1 s3 e hinc h1 h2 h3
    have hA : (advisorAnalyze llm mkAdvisorAgent user sip n1).1 = pyStrip s1 := by
      simp only [advisorAnalyze, Agent.respond, h1]
    have hR : (mkRiskAgent.respond llm n2
        (riskPrompt user sip (sip.monthly_sip / user.monthly_income * 100)
          (pyStrip s1)) riskContext).1 = "त्रुटि: " ++ e := by
      simp only [Agent.respond, h2]
    have hP : (mkPlannerAgent.respond llm n3
        (plannerPrompt user sip (pyStrip s1) ("त्रुटि: " ++ e)) plannerContext).1 =
        pyStrip s3 := by
      simp only [Agent.respond, h3]
    have hrun := run_flow_completes llm user sip n1 n2 n3 hinc
    rw [hA] at hrun
    rw [hR] at hrun
    rw [hP] at hrun
    refine ⟨hrun, ?_, plannerPrompt_contains_risk user sip (pyStrip s1) ("त्रुटि: " ++ e)⟩
    intro hcon
    have h4 : ("त्रुटि: ".data ++ e.data) = List.nil := congrArg String.data hcon
    have h5 := List.append_eq_nil.mp h4
    exact absurd h5.1 (by decide)

/-- Claim C5 witness: the fail-soft record law and the stage-2-failure run
applied at concrete inputs. -/
theorem claim_C5_witness :
    (mkAdvisorAgent.respond (fun _ _ => Except.error "x") "t" "p" "c").1 =
      "त्रुटि: " ++ "x" ∧
    run_multi_agent_flow failRiskLlm user0 sip0 "t" "t" "t" =
      .ok (pyStrip "", "त्रुटि: " ++ "boom", pyStrip "") ∧
    ("त्रुटि: " ++ "boom") ≠ "" := by
  have h1 : failRiskLlm (systemContent mkAdvisorAgent advisorContext)
      (humanContent (advisorPrompt user0 sip0)) = .ok "" := by
    simp only [failRiskLlm]
    rw [if_neg (by decide)]
  have h2 : failRiskLlm (systemContent mkRiskAgent riskContext)
      (humanContent (riskPrompt user0 sip0
        (sip0.monthly_sip / user0.monthly_income * 100) (pyStrip ""))) =
      .error "boom" := by
    simp only [failRiskLlm]
    simp
  have h3 : failRiskLlm (systemContent mkPlannerAgent plannerContext)
      (humanContent (plannerPrompt user0 sip0 (pyStrip "") ("त्रुटि: " ++ "boom"))) =
      .ok "" := by
    simp only [failRiskLlm]
    rw [if_neg (by decide)]
  have h := claim_C5.2 failRiskLlm user0 sip0 "t" "t" "t" "" "" "boom"
    (by norm_num [user0]) h1 h2 h3
  exact ⟨congrArg Prod.fst
    (claim_C5.1 mkAdvisorAgent (fun _ _ => Except.error "x") "t" "p" "c" "x" rfl),
    h.1, h.2.1⟩

/-- JSON documents: what a transcript file holds. The Python code builds a
dict and serializes it with json.dump (ensure_ascii=False) and reads it back
with json.load; the byte-level JSON encoding is the json library's and is
modelled at the document level, strings kept verbatim. -/
inductive JVal where
  | str (s : String)
  | num (q : ℚ)
  | obj (fields : List (String × JVal))

/-- Object field lookup. -/
def jGet (v : JVal) (key : String) : Option JVal :=
  match v with
  | .obj fields => fields.lookup key
  | _ => none

/-- The filesystem as seen by the transcript store: newest-first association
of paths to documents (a later write to the same path shadows the earlier one:
last write wins). -/
def FileSys : Type := List (String × JVal)

/-- The conversation_data record built by save_conversation (src/utils.py
lines 95-121); the role strings are copied verbatim from the source file. -/
def conversation_data (user_data calculations : List (String × JVal))
    (advisor_output risk_output planner_output : String)
    (now_iso now_readable : String) : JVal :=
  .obj [
    ("timestamp", .str now_iso),
    ("date_readable", .str now_readable),
    ("user_input", .obj user_data),
    ("calculations", .obj calculations),
    ("agent_outputs", .obj [
      ("advisor", .obj [
        ("role", .str "‡§∏‡§≤‡§æ‡§π‡§ï‡§æ‡§∞ (Advisor)"),
        ("output", .str advisor_output),
        ("summary", .str (summarize_short advisor_output 100))]),
      ("risk_analyst", .obj [
        ("role", .str "‡§ú‡•ã‡§ñ‡§ø‡§Æ ‡§µ‡§ø‡§∂‡•ç‡§≤‡•á‡§∑‡§ï (Risk Analyst)"),
        ("output", .str risk_output),
        ("summary", .str (summarize_short risk_output 100))]),
      ("planner", .obj [
        ("role", .str "‡§Ø‡•ã‡§ú‡§®‡§æ‡§ï‡§∞‡•ç‡§§‡•ç‡§§‡§æ (Planner)"),
        ("output", .str planner_output),
        ("summary", .str (summarize_short planner_output 100))])]),
    ("metadata", .obj [
      ("version", .str "1.0"),
      ("system", .str "Multi-Agent Hindi Finance Advisor")])]

/-- Embedding of save_conversation (src/utils.py lines 55-134): builds the
record, derives the `finance_plan_<stamp>.json` path inside output_dir, writes
the document there, and returns the path; `now_iso`, `now_readable` and
`stamp` stand for the datetime.now() renderings. -/
def save_conversation (fs : FileSys)
    (user_data calculations : List (String × JVal))
    (advisor_output risk_output planner_output : String)
    (output_dir now_iso now_readable stamp : String) : String × FileSys :=
  let doc := conversation_data user_data calculations
    advisor_output risk_output planner_output now_iso now_readable
  let filename := output_dir ++ "/finance_plan_" ++ stamp ++ ".json"
  (filename, (filename, doc) :: fs)

/-- Embedding of load_conversation (src/utils.py lines 137-157): reads the
document back, failing (FileNotFoundError) when the path is absent. -/
def load_conversation (fs : FileSys) (filename : String) : Except String JVal :=
  match List.lookup filename fs with
  | some v => .ok v
  | none => .error "FileNotFoundError"

/-- Claim C6: loading the path returned by save_conversation yields a record
whose user_input equals user_data field-for-field, whose calculations equals
sip_calc field-for-field, and whose three agent output texts are exactly the
strings passed in (strings kept verbatim, so non-ASCII is preserved). -/
theorem claim_C6 (fs : FileSys) (user_data calculations : List (String × JVal))
    (advisor_output risk_output planner_output : String)
    (output_dir now_iso now_readable stamp : String) :
    load_conversation
        (save_conversation fs user_data calculations advisor_output risk_output
          planner_output output_dir now_iso now_readable stamp).2
        (save_conversation fs user_data calculations advisor_output risk_output
          planner_output output_dir now_iso now_readable stamp).1 =
      .ok (conversation_data user_data calculations advisor_output risk_output
        planner_output now_iso now_readable) ∧
    jGet (conversation_data user_data calculations advisor_output risk_output
        planner_output now_iso now_readable) "user_input" =
      some (.obj user_data) ∧
    jGet (conversation_data user_data calculations advisor_output risk_output
        planner_output now_iso now_readable) "calculations" =
      some (.obj calculations) ∧
    ((jGet (conversation_data user_data calculations advisor_output risk_output
        planner_output now_iso now_readable) "agent_outputs").bind
      (fun a => jGet a "advisor")).bind (fun a => jGet a "output") =
      some (.str advisor_output) ∧
    ((jGet (conversation_data user_data calculations advisor_output risk_output
        planner_output now_iso now_readable) "agent_outputs").bind
      (fun a => jGet a "risk_analyst")).bind (fun a => jGet a "output") =
      some (.str risk_output) ∧
    ((jGet (conversation_data user_data calculations advisor_output risk_output
        planner_output now_iso now_readable) "agent_outputs").bind
      (fun a => jGet a "planner")).bind (fun a => jGet a "output") =
      some (.str planner_output) := by
  refine ⟨?_, ?_, ?_, ?_, ?_, ?_⟩ <;>
    simp [load_conversation, save_conversation, conversation_data, jGet, List.lookup]

/-- stat metadata of one file (st_mtime in whole seconds, st_size in bytes). -/
structure FileStat where
  st_mtime : ℕ
  st_size : ℕ
deriving DecidableEq, Repr

/-- One name in a directory listing together with its stat. -/
structure DirEntry where
  name : String
  stat : FileStat
deriving DecidableEq, Repr

/-- One element of list_conversations' result (src/utils.py lines 188-195). -/
structure ConvEntry where
  filename : String
  filepath : String
  timestamp : ℕ
  timestamp_readable : String
  size_bytes : ℕ
  size_kb : ℚ
deriving DecidableEq, Repr

/-- Model of the strftime rendering of a modification time (the readable
timestamp string; its exact format is not load-bearing for any claim). -/
def readableOf (t : ℕ) : String := toString t

/-- Model of Python `str.endswith`. -/
def pyEndsWith (s sfx : String) : Bool := sfx.data.isSuffixOf s.data

/-- Model of Python `str.startswith`. -/
def pyStartsWith (s pre : String) : Bool := pre.data.isPrefixOf s.data

/-- The entry built for one directory file (src/utils.py lines 182-195);
timestamps are modelled by the integer mtime (the code sorts on the ISO
rendering, which orders identically). -/
def mkConvEntry (output_dir : String) (e : DirEntry) : ConvEntry :=
  { filename := e.name,
    filepath := output_dir ++ "/" ++ e.name,
    timestamp := e.stat.st_mtime,
    timestamp_readable := readableOf e.stat.st_mtime,
    size_bytes := e.stat.st_size,
    size_kb := round2 ((e.stat.st_size : ℚ) / 1024) }

/-- Stable descending insertion by timestamp (model of the stable
`sort(key=timestamp, reverse=True)`). -/
def insertByTime (x : ConvEntry) : List ConvEntry → List ConvEntry
  | [] => [x]
  | y :: ys =>
    if y.timestamp < x.timestamp then x :: y :: ys else y :: insertByTime x ys

def sortByTimeDesc : List ConvEntry → List ConvEntry
  | [] => []
  | x :: xs => insertByTime x (sortByTimeDesc xs)

/-- Embedding of list_conversations (src/utils.py lines 160-200): empty when
the directory does not exist; otherwise one entry per file whose name ends in
".json", from filesystem metadata, newest first. The filesystem is modelled as
an association of directory paths to listings. -/
def list_conversations (dirs : List (String × List DirEntry))
    (output_dir : String) : List ConvEntry :=
  match List.lookup output_dir dirs with
  | none => []
  | some entries =>
    sortByTimeDesc
      ((entries.filter (fun e => pyEndsWith e.name ".json")).map
        (mkConvEntry output_dir))

theorem insertByTime_perm (x : ConvEntry) (l : List ConvEntry) :
    (insertByTime x l).Perm (x :: l) := by
  induction l with
  | nil => simp [insertByTime]
  | cons y ys ih =>
    rw [insertByTime]
    by_cases h : y.timestamp < x.timestamp
    · rw [if_pos h]
    · rw [if_neg h]
      exact (ih.cons y).trans (List.Perm.swap x y ys)

theorem sortByTimeDesc_perm (l : List ConvEntry) : (sortByTimeDesc l).Perm l := by
  induction l with
  | nil => rfl
  | cons x xs ih =>
    rw [sortByTimeDesc]
    exact (insertByTime_perm x (sortByTimeDesc xs)).trans (ih.cons x)

theorem insertByTime_pairwise (x : ConvEntry) (l : List ConvEntry)
    (h : l.Pairwise (fun a b => b.timestamp ≤ a.timestamp)) :
    (insertByTime x l).Pairwise (fun a b => b.timestamp ≤ a.timestamp) := by
  induction l with
  | nil => simp [insertByTime]
  | cons y ys ih =>
    rw [List.pairwise_cons] at h
    obtain ⟨hy, hys⟩ := h
    rw [insertByTime]
    by_cases hc : y.timestamp < x.timestamp
    · rw [if_pos hc]
      refine List.Pairwise.cons ?_ (List.Pairwise.cons hy hys)
      intro z hz
      rcases List.mem_cons.mp hz with rfl | hz2
      · omega
      · have := hy z hz2
        omega
    · rw [if_neg hc]
      refine List.Pairwise.cons ?_ (ih hys)
      intro z hz
      have hz3 := (insertByTime_perm x ys).mem_iff.mp hz
      rcases List.mem_cons.mp hz3 with rfl | hz4
      · omega
      · exact hy z hz4

theorem sortByTimeDesc_pairwise (l : List ConvEntry) :
    (sortByTimeDesc l).Pairwise (fun a b => b.timestamp ≤ a.timestamp) := by
  induction l with
  | nil => simp [sortByTimeDesc]
  | cons x xs ih =>
    rw [sortByTimeDesc]
    exact insertByTime_pairwise x (sortByTimeDesc xs) ih

/-- Claim C9 counterexample: the code filters on the ".json" extension only,
so a file whose name does not match the finance_plan_<YYYYMMDD_HHMMSS>.json
convention still yields an entry. -/
theorem claim_C9_counterexample :
    list_conversations [("logs", [{ name := "other.json", stat := { st_mtime := 5, st_size := 2048 } }])]
        "logs" =
      [{ filename := "other.json", filepath := "logs/other.json", timestamp := 5,
         timestamp_readable := readableOf 5, size_bytes := 2048, size_kb := 2 }] ∧
    pyStartsWith "other.json" "finance_plan_" = false := by
  constructor
  · have hf : (fun e : DirEntry => pyEndsWith e.name ".json")
        { name := "other.json", stat := { st_mtime := 5, st_size := 2048 } } = true := by
      decide
    simp only [list_conversations, List.lookup, beq_self_eq_true, List.filter,
      hf, List.map, mkConvEntry, sortByTimeDesc, insertByTime,
      List.cons.injEq, and_true, ConvEntry.mk.injEq]
    refine ⟨by decide, by decide, by decide, by decide, by decide, ?_⟩
    rw [round2_eq_of (n := 200) (by norm_num) (by norm_num)]
    norm_num
  · decide

/-- Claim C9 (amended): list_conversations returns the empty sequence (not an
error) when the directory is absent; otherwise exactly one entry per file
whose name ends in ".json" (not only finance_plan_ files), each entry derived
from that file's metadata, ordered newest-first by timestamp. -/
theorem claim_C9 (dirs : List (String × List DirEntry)) (output_dir : String) :
    (List.lookup output_dir dirs = none → list_conversations dirs output_dir = []) ∧
    (∀ entries, List.lookup output_dir dirs = some entries →
      (list_conversations dirs output_dir).Perm
        ((entries.filter (fun e => pyEndsWith e.name ".json")).map
          (mkConvEntry output_dir)) ∧
      (list_conversations dirs output_dir).Pairwise
        (fun a b => b.timestamp ≤ a.timestamp) ∧
      ∀ e ∈ entries, pyEndsWith e.name ".json" = true →
        mkConvEntry output_dir e ∈ list_conversations dirs output_dir) ∧
    (∀ e : DirEntry,
      (mkConvEntry output_dir e).filename = e.name ∧
      (mkConvEntry output_dir e).filepath = output_dir ++ "/" ++ e.name ∧
      (mkConvEntry output_dir e).timestamp = e.stat.st_mtime ∧
      (mkConvEntry output_dir e).size_bytes = e.stat.st_size ∧
      (mkConvEntry output_dir e).size_kb = round2 ((e.stat.st_size : ℚ) / 1024)) := by
  refine ⟨?_, ?_, ?_⟩
  · intro h
    rw [list_conversations, h]
  · intro entries h
    rw [list_conversations, h]
    refine ⟨sortByTimeDesc_perm _, sortByTimeDesc_pairwise _, ?_⟩
    intro e he hend
    exact (sortByTimeDesc_perm _).mem_iff.mpr
      (List.mem_map_of_mem _ (List.mem_filter.mpr ⟨he, hend⟩))
  · intro e
    exact ⟨rfl, rfl, rfl, rfl, rfl⟩

/-- Claim C9 witness: the missing-directory case and the ordering applied to a
concrete listing. -/
theorem claim_C9_witness :
    list_conversations [] "logs" = [] ∧
    (list_conversations
        [("logs", [{ name := "a.json", stat := { st_mtime := 1, st_size := 10 } }])]
        "logs").Pairwise (fun a b => b.timestamp ≤ a.timestamp) :=
  ⟨(claim_C9 [] "logs").1 rfl,
   ((claim_C9 [("logs", [{ name := "a.json", stat := { st_mtime := 1, st_size := 10 } }])]
      "logs").2.1 [{ name := "a.json", stat := { st_mtime := 1, st_size := 10 } }]
      (by decide)).2.1⟩

end FinanceAdvisor
